import Mathlib

/-!
Verification of the cua-browser agent core (src/app/api/cua/agent/agent.ts,
src/app/api/cua/agent/base_playwright.ts, and the route/class variants in
src/unnamed/part_001 and src/unnamed/part_004) against its natural-language
specification.

The embedding models:
* JavaScript JSON values and `JSON.parse` / `JSON.stringify` (used by
  `takeFunctionAction` and the retry clients);
* the remote browser session as an external collaborator (`Computer`), with
  dynamic method dispatch as performed by `takeComputerAction`;
* the agent operations `takeComputerAction`, `takeFunctionAction`,
  `takeAction`, `getAction` and the model-request retry clients
  `createResponse` (agent.ts) and `fetchWithRetry` (part_004);
* the step route's "only reasoning" retry loop (part_001).

Network fetches are modelled by a script (a list of scheduled outcomes), and
each agent operation returns the trace of browser-capability invocations it
performed alongside its result, so that side effects are observable in
theorems.
-/

set_option autoImplicit false

namespace CuaBrowser

/-- JavaScript values as produced by `JSON.parse`.  Numbers are carried as
their source lexeme: no property proved here inspects numeric magnitude, and
this avoids committing to floating-point semantics. -/
inductive JsonVal where
  | null
  | bool (b : Bool)
  | num (lexeme : String)
  | str (s : String)
  | arr (elems : List JsonVal)
  | obj (fields : List (String × JsonVal))
deriving Repr

/-- Whitespace accepted between JSON tokens (RFC 8259 / `JSON.parse`). -/
def isJsonWs (c : Char) : Bool :=
  c == ' ' || c == '\t' || c == '\n' || c == '\r'

/-- Drop leading JSON whitespace. -/
def skipWs : List Char → List Char
  | [] => []
  | c :: cs => if isJsonWs c then skipWs cs else c :: cs

/-- Value of a hexadecimal digit, if the character is one. -/
def hexDigit (c : Char) : Option Nat :=
  if 48 ≤ c.toNat && c.toNat ≤ 57 then some (c.toNat - 48)
  else if 97 ≤ c.toNat && c.toNat ≤ 102 then some (c.toNat - 87)
  else if 65 ≤ c.toNat && c.toNat ≤ 70 then some (c.toNat - 55)
  else none

/-- Parse the body of a JSON string literal (the opening quote already
consumed), handling the escape sequences `JSON.parse` accepts and rejecting
raw control characters. -/
def parseStringChars : List Char → List Char → Option (String × List Char)
  | _, [] => none
  | acc, c :: cs =>
    if c == '"' then some (String.mk acc.reverse, cs)
    else if c == '\\' then
      match cs with
      | [] => none
      | e :: cs2 =>
        if e == '"' then parseStringChars ('"' :: acc) cs2
        else if e == '\\' then parseStringChars ('\\' :: acc) cs2
        else if e == '/' then parseStringChars ('/' :: acc) cs2
        else if e == 'b' then parseStringChars (Char.ofNat 8 :: acc) cs2
        else if e == 'f' then parseStringChars (Char.ofNat 12 :: acc) cs2
        else if e == 'n' then parseStringChars ('\n' :: acc) cs2
        else if e == 'r' then parseStringChars ('\r' :: acc) cs2
        else if e == 't' then parseStringChars ('\t' :: acc) cs2
        else if e == 'u' then
          match cs2 with
          | h1 :: h2 :: h3 :: h4 :: cs3 =>
            match hexDigit h1, hexDigit h2, hexDigit h3, hexDigit h4 with
            | some a, some b, some c2, some d =>
              parseStringChars (Char.ofNat (((a * 16 + b) * 16 + c2) * 16 + d) :: acc) cs3
            | _, _, _, _ => none
          | _ => none
        else none
    else if c.toNat < 32 then none
    else parseStringChars (c :: acc) cs

/-- Longest prefix of decimal digits. -/
def takeDigits : List Char → (List Char × List Char)
  | [] => ([], [])
  | c :: cs =>
    if c.isDigit then
      let (ds, r) := takeDigits cs
      (c :: ds, r)
    else ([], c :: cs)

/-- Integer part of a JSON number: `0`, or a nonzero digit followed by
digits (JSON forbids leading zeros). -/
def parseIntDigits : List Char → Option (List Char × List Char)
  | [] => none
  | c :: cs =>
    if c == '0' then some (['0'], cs)
    else if c.isDigit then
      let (ds, r) := takeDigits cs
      some (c :: ds, r)
    else none

/-- Optional fraction part `.digits` of a JSON number. -/
def parseFrac : List Char → Option (List Char × List Char)
  | '.' :: cs =>
    match takeDigits cs with
    | ([], _) => none
    | (ds, r) => some ('.' :: ds, r)
  | cs => some ([], cs)

/-- Optional exponent part of a JSON number. -/
def parseExp : List Char → Option (List Char × List Char)
  | [] => some ([], [])
  | c :: cs =>
    if c == 'e' || c == 'E' then
      match cs with
      | [] => none
      | s :: cs2 =>
        if s == '+' || s == '-' then
          match takeDigits cs2 with
          | ([], _) => none
          | (ds, r) => some (c :: s :: ds, r)
        else
          match takeDigits cs with
          | ([], _) => none
          | (ds, r) => some (c :: ds, r)
    else some ([], c :: cs)

/-- Parse a JSON number, keeping its lexeme. -/
def parseNumber (cs : List Char) : Option (JsonVal × List Char) :=
  let (sign, cs1) := match cs with
    | '-' :: r => (['-'], r)
    | _ => ([], cs)
  match parseIntDigits cs1 with
  | none => none
  | some (ip, cs2) =>
    match parseFrac cs2 with
    | none => none
    | some (fp, cs3) =>
      match parseExp cs3 with
      | none => none
      | some (ep, cs4) => some (.num (String.mk (sign ++ ip ++ fp ++ ep)), cs4)

mutual

/-- Parse one JSON value.  The fuel argument only bounds recursion depth;
`jsonParse` supplies more fuel than any input can consume. -/
def parseVal : Nat → List Char → Option (JsonVal × List Char)
  | 0, _ => none
  | fuel + 1, cs =>
    match skipWs cs with
    | 'n' :: 'u' :: 'l' :: 'l' :: rest => some (.null, rest)
    | 't' :: 'r' :: 'u' :: 'e' :: rest => some (.bool true, rest)
    | 'f' :: 'a' :: 'l' :: 's' :: 'e' :: rest => some (.bool false, rest)
    | '"' :: rest =>
      match parseStringChars [] rest with
      | some (s, r) => some (.str s, r)
      | none => none
    | '[' :: rest =>
      match skipWs rest with
      | ']' :: r => some (.arr [], r)
      | cs2 =>
        match parseElems fuel cs2 with
        | some (xs, r) => some (.arr xs, r)
        | none => none
    | '{' :: rest =>
      match skipWs rest with
      | '}' :: r => some (.obj [], r)
      | cs2 =>
        match parseMembers fuel cs2 with
        | some (fs, r) => some (.obj fs, r)
        | none => none
    | cs2 => parseNumber cs2

/-- Parse the elements of a non-empty JSON array, up to and including the
closing bracket. -/
def parseElems : Nat → List Char → Option (List JsonVal × List Char)
  | 0, _ => none
  | fuel + 1, cs =>
    match parseVal fuel cs with
    | none => none
    | some (v, r) =>
      match skipWs r with
      | ',' :: r2 =>
        match parseElems fuel r2 with
        | some (vs, r3) => some (v :: vs, r3)
        | none => none
      | ']' :: r2 => some ([v], r2)
      | _ => none

/-- Parse the members of a non-empty JSON object, up to and including the
closing brace.  Key order is preserved: `Object.entries` / `Object.values`
iterate string keys in insertion order, which for `JSON.parse` is source
order. -/
def parseMembers : Nat → List Char → Option (List (String × JsonVal) × List Char)
  | 0, _ => none
  | fuel + 1, cs =>
    match skipWs cs with
    | '"' :: rest =>
      match parseStringChars [] rest with
      | none => none
      | some (k, r) =>
        match skipWs r with
        | ':' :: r2 =>
          match parseVal fuel r2 with
          | none => none
          | some (v, r3) =>
            match skipWs r3 with
            | ',' :: r4 =>
              match parseMembers fuel r4 with
              | some (fs, r5) => some ((k, v) :: fs, r5)
              | none => none
            | '}' :: r4 => some ([(k, v)], r4)
            | _ => none
        | _ => none
    | _ => none

end

/-- Model of `JSON.parse`: either the parsed value or a `SyntaxError`
message.  Trailing non-whitespace is rejected, as `JSON.parse` does. -/
def jsonParse (s : String) : Except String JsonVal :=
  match parseVal (2 * s.length + 2) s.data with
  | some (v, rest) =>
    if (skipWs rest).isEmpty then .ok v
    else .error "Unexpected non-whitespace character after JSON data"
  | none => .error "Unexpected token in JSON input"

example : jsonParse "{}" = .ok (.obj []) := rfl
example : jsonParse " [1, \"a\", null] " =
    .ok (.arr [.num "1", .str "a", .null]) := rfl
example : jsonParse "\x7b\"url\":\"https://x.dev\"\x7d" =
    .ok (.obj [("url", .str "https://x.dev")]) := rfl
example : jsonParse "\x7b" = .error "Unexpected token in JSON input" := rfl
example : jsonParse "01" =
    .error "Unexpected non-whitespace character after JSON data" := rfl

/-- Escape one character for `JSON.stringify` output (the escapes relevant to
the strings this codebase produces). -/
def escChar (c : Char) : List Char :=
  if c == '"' then ['\\', '"']
  else if c == '\\' then ['\\', '\\']
  else if c == '\n' then ['\\', 'n']
  else if c == '\t' then ['\\', 't']
  else if c == '\r' then ['\\', 'r']
  else [c]

mutual

/-- Model of `JSON.stringify` on parsed JSON values (compact form, as the
error messages in the retry clients use it). -/
def jsonStringify : JsonVal → String
  | .null => "null"
  | .bool true => "true"
  | .bool false => "false"
  | .num lexeme => lexeme
  | .str s => "\"" ++ String.mk (List.flatten (s.data.map escChar)) ++ "\""
  | .arr xs => "[" ++ jsonStringifyElems xs ++ "]"
  | .obj fs => "\x7b" ++ jsonStringifyFields fs ++ "\x7d"

/-- Comma-separated serialization of array elements. -/
def jsonStringifyElems : List JsonVal → String
  | [] => ""
  | [x] => jsonStringify x
  | x :: xs => jsonStringify x ++ "," ++ jsonStringifyElems xs

/-- Comma-separated serialization of object members. -/
def jsonStringifyFields : List (String × JsonVal) → String
  | [] => ""
  | [(k, v)] => "\"" ++ String.mk (List.flatten (k.data.map escChar)) ++ "\":" ++ jsonStringify v
  | (k, v) :: fs =>
    "\"" ++ String.mk (List.flatten (k.data.map escChar)) ++ "\":" ++ jsonStringify v
      ++ "," ++ jsonStringifyFields fs

end

mutual

/-- JavaScript string coercion (template-literal interpolation) of a value:
strings are themselves, arrays join their elements with commas, plain objects
print as `[object Object]`. -/
def jsToString : JsonVal → String
  | .null => "null"
  | .bool true => "true"
  | .bool false => "false"
  | .num lexeme => lexeme
  | .str s => s
  | .arr xs => jsToStringElems xs
  | .obj _ => "[object Object]"

/-- Array-to-string coercion: elements joined by commas, with `null`
rendering as the empty string inside an array. -/
def jsToStringElems : List JsonVal → String
  | [] => ""
  | [.null] => ""
  | [x] => jsToString x
  | .null :: xs => "," ++ jsToStringElems xs
  | x :: xs => jsToString x ++ "," ++ jsToStringElems xs

end

/-- Model of `Object.values`: insertion-ordered values of an object; array
elements for arrays; single-character strings for strings; the empty list for
boxed primitives; a `TypeError` for `null` (as in JavaScript). -/
def jsObjectValues : JsonVal → Except String (List JsonVal)
  | .null => .error "Cannot convert undefined or null to object"
  | .obj fs => .ok (fs.map Prod.snd)
  | .arr xs => .ok xs
  | .str s => .ok (s.data.map (fun c => .str (String.mk [c])))
  | .bool _ => .ok []
  | .num _ => .ok []

/-- JavaScript exceptions thrown by the embedded code: `new Error(...)`,
engine `TypeError`s from bad dynamic dispatch, `SyntaxError` from
`JSON.parse`, and network-level rejections of `fetch`. -/
inductive JsError where
  | error (msg : String)
  | typeError (msg : String)
  | syntaxError (msg : String)
  | transport (msg : String)
deriving Repr, DecidableEq

/-- Message carried by a JavaScript exception. -/
def JsError.msg : JsError → String
  | .error m => m
  | .typeError m => m
  | .syntaxError m => m
  | .transport m => m

/-- Modelled from the spec: the `pending_safety_checks` entry shape
(`{id, code, message}`) declared in the data model of the specification;
`types.ts` is not part of the provided sources. -/
structure SafetyCheck where
  id : String
  code : String
  message : String
deriving Repr, DecidableEq

/-- Modelled from the spec: a `computer_call` action object.  The source
reads `action.type` as the discriminator and passes the remaining fields
positionally via `Object.values(Object.entries(action).filter(key ≠ type))`,
so the non-discriminator fields are kept as an insertion-ordered list. -/
structure CompAction where
  type : String
  rest : List (String × JsonVal)
deriving Repr

/-- Modelled from the spec: a `computer_call` output item.
`pending_safety_checks` may be absent (the source guards with `|| []`). -/
structure ComputerToolCall where
  call_id : String
  action : CompAction
  pending_safety_checks : Option (List SafetyCheck)
deriving Repr

/-- Modelled from the spec: a `function_call` output item with its
JSON-encoded argument string. -/
structure FunctionToolCall where
  call_id : String
  name : String
  arguments : String
deriving Repr

/-- Modelled from the spec: a terminal `message` item. -/
structure Message where
  role : String
  content : List String
deriving Repr

/-- Modelled from the spec: the tagged output items a model response can
contain (`message`, `computer_call`, `function_call`, `reasoning`). -/
inductive Item where
  | message (m : Message)
  | computer_call (c : ComputerToolCall)
  | function_call (f : FunctionToolCall)
  | reasoning (id : String)
deriving Repr

/-- The `output` field of a `computer_call_output`: a MIME-tagged image. -/
structure InputImage where
  type : String
  image_url : String
deriving Repr, DecidableEq

/-- Result item answering a `computer_call`. -/
structure ComputerCallOutput where
  type : String
  call_id : String
  acknowledged_safety_checks : List SafetyCheck
  output : InputImage
deriving Repr

/-- Result item answering a `function_call`. -/
structure FunctionOutput where
  type : String
  call_id : String
  output : String
deriving Repr, DecidableEq

/-- Union type returned by `takeAction`
(`Message | ComputerCallOutput | FunctionOutput` in the source; no `message`
value is ever produced). -/
inductive ActionResult where
  | message (m : Message)
  | computerOut (o : ComputerCallOutput)
  | functionOut (o : FunctionOutput)
deriving Repr

/-- The `call_id` of an action result (empty for the never-produced
`message` alternative). -/
def resultCallId : ActionResult → String
  | .message _ => ""
  | .computerOut o => o.call_id
  | .functionOut o => o.call_id

/-- Items that `takeAction` dispatches to the executor. -/
def isActionable : Item → Bool
  | .computer_call _ => true
  | .function_call _ => true
  | _ => false

/-- The `call_id` of an actionable item (empty otherwise). -/
def itemCallId : Item → String
  | .computer_call c => c.call_id
  | .function_call f => f.call_id
  | _ => ""

/-- One invocation of a browser-session capability: the observable side
effect of a dynamically dispatched `method.apply(computer, args)` or of the
direct `computer.screenshot()` call. -/
inductive Event where
  | call (name : String) (args : List JsonVal)
deriving Repr

/-- The remote browser session, an external collaborator (the
`BrowserbaseBrowser` / `BasePlaywrightComputer` object).  `methods` are the
property names holding functions (dynamic dispatch by `action.type` or
function-call `name` succeeds exactly on these); `props` are non-function
properties; `call` is the behavior of invoking a method, threading an
abstract session state `σ`; `dimensions`/`environment` mirror the data
fields read by `createAgent`. -/
structure Computer (σ : Type) where
  methods : List String
  props : List String
  call : σ → String → List JsonVal → Except JsError (σ × JsonVal)
  dimensions : Nat × Nat
  environment : String

/-- Entry of the tool manifest sent to the model.  The JSON-schema parameter
declarations are elided: no claim inspects them. -/
structure Tool where
  type : String
  name : Option String
  display_width : Option Nat
  display_height : Option Nat
  environment : Option String
deriving Repr, DecidableEq

/-- The `AgentDependencies` record of agent.ts (equally the private fields
of the `Agent` class variants).  The OpenAI SDK `client` field is omitted:
`createResponse` performs a raw `fetch` and never uses it.  `computer` is an
`Option` because the source guards `if (!dependencies.computer)`. -/
structure AgentDependencies (σ : Type) where
  model : String
  computer : Option (Computer σ)
  tools : List Tool
  printSteps : Bool
  acknowledgeSafetyCheckCallback : String → Bool
  lastResponseId : Option String

/-- The tool manifest built by `createAgent` in agent.ts. -/
def createAgentTools (dimensions : Nat × Nat) (environment : String) : List Tool :=
  [ { type := "computer-preview", name := none,
      display_width := some dimensions.1, display_height := some dimensions.2,
      environment := some environment },
    { type := "function", name := some "back",
      display_width := none, display_height := none, environment := none },
    { type := "function", name := some "goto",
      display_width := none, display_height := none, environment := none } ]

/-- `createAgent` from agent.ts: assembles the dependency record with the
fixed tool manifest (the OpenAI client construction is environment glue and
not modelled). -/
def createAgent {σ' : Type} (model : String) (computer : Computer σ')
    (acknowledgeSafetyCheckCallback : String → Bool) (printSteps : Bool) :
    AgentDependencies σ' :=
  { model := model
    computer := some computer
    tools := createAgentTools computer.dimensions computer.environment
    printSteps := printSteps
    acknowledgeSafetyCheckCallback := acknowledgeSafetyCheckCallback
    lastResponseId := none }

/-- Result of running one embedded agent operation: the trace of
browser-capability invocations it performed, and either the final session
state with the produced value or the JavaScript exception thrown. -/
structure Run (σ α : Type) where
  events : List Event
  outcome : Except JsError (σ × α)

section Executor

variable {σ : Type}

/-- The positional argument list extracted from a `computer_call` action:
`Object.values(Object.entries(action).filter(([key]) => key !== "type"))`. -/
def argVals (a : CompAction) : List JsonVal :=
  (a.rest.filter (fun kv => kv.1 != "type")).map Prod.snd

/-- The pending safety checks of a computer call
(`computerItem.pending_safety_checks || []`). -/
def checksOf (item : ComputerToolCall) : List SafetyCheck :=
  item.pending_safety_checks.getD []

/-- The error message thrown on a rejected safety check (agent.ts line
232-234). -/
def safetyMsg (message : String) : String :=
  "Safety check failed: " ++ message ++
    ". Cannot continue with unacknowledged safety checks."

/-- Dynamic dispatch `computer[name].apply(computer, args)` as performed by
agent.ts (no `typeof` guard): a function-valued property is invoked; a
non-function property or an absent property raises an engine `TypeError`
without touching the browser. -/
def dynCall (c : Computer σ) (name : String) (args : List JsonVal) (st : σ) :
    Run σ JsonVal :=
  if c.methods.contains name then
    match c.call st name args with
    | .error e => ⟨[Event.call name args], .error e⟩
    | .ok r => ⟨[Event.call name args], .ok r⟩
  else if c.props.contains name then
    ⟨[], .error (.typeError "method.apply is not a function")⟩
  else
    ⟨[], .error (.typeError "Cannot read properties of undefined")⟩

/-- Shared body of `takeComputerAction` once a browser handle is present
(identical in agent.ts and in the part_001/part_004 class variants): invoke
the primitive named by `action.type` with the positional arguments, always
take a screenshot afterwards, then walk `pending_safety_checks` and throw on
the first check the acknowledgment policy rejects; otherwise return the
`computer_call_output` carrying the screenshot as a base64 PNG data URL. -/
def computerCallCore (deps : AgentDependencies σ) (c : Computer σ)
    (item : ComputerToolCall) (st : σ) : Run σ ComputerCallOutput :=
  let r1 := dynCall c item.action.type (argVals item.action) st
  match r1.outcome with
  | .error e => ⟨r1.events, .error e⟩
  | .ok (st1, _) =>
    match c.call st1 "screenshot" [] with
    | .error e => ⟨r1.events ++ [Event.call "screenshot" []], .error e⟩
    | .ok (st2, shot) =>
      let events := r1.events ++ [Event.call "screenshot" []]
      match (checksOf item).find?
          (fun ch => !(deps.acknowledgeSafetyCheckCallback ch.message)) with
      | some ch => ⟨events, .error (.error (safetyMsg ch.message))⟩
      | none =>
        ⟨events, .ok (st2,
          { type := "computer_call_output"
            call_id := item.call_id
            acknowledged_safety_checks := checksOf item
            output := { type := "input_image"
                        image_url := "data:image/png;base64," ++ jsToString shot } })⟩

/-- `takeComputerAction` from agent.ts (lines 202-247): fails with
`Computer not initialized` when no browser handle is present, then performs
the dispatch / screenshot / safety-check sequence.  (The `printSteps`
console log is unobservable and not modelled.) -/
def takeComputerAction (deps : AgentDependencies σ) (item : ComputerToolCall)
    (st : σ) : Run σ ComputerCallOutput :=
  match deps.computer with
  | none => ⟨[], .error (.error "Computer not initialized")⟩
  | some c => computerCallCore deps c item st

/-- `Agent.takeComputerAction` from part_001 (lines 287-338): identical to
the agent.ts variant except that it checks
`typeof method !== "function"` before applying, raising the descriptive
`Method <type> not found on computer` error for unmapped action types. -/
def takeComputerActionChecked (deps : AgentDependencies σ)
    (item : ComputerToolCall) (st : σ) : Run σ ComputerCallOutput :=
  match deps.computer with
  | none => ⟨[], .error (.error "Computer not initialized")⟩
  | some c =>
    if c.methods.contains item.action.type then
      computerCallCore deps c item st
    else
      ⟨[], .error (.error ("Method " ++ item.action.type ++ " not found on computer"))⟩

/-- `takeFunctionAction` from agent.ts (lines 249-275): `JSON.parse` the
argument string (throwing a `SyntaxError` on invalid JSON before any browser
interaction), invoke the capability named by the call if the browser session
has a function of that name (no-op otherwise), and return the hard-coded
`success` output. -/
def takeFunctionAction (deps : AgentDependencies σ) (functionItem : FunctionToolCall)
    (st : σ) : Run σ FunctionOutput :=
  match jsonParse functionItem.arguments with
  | .error e => ⟨[], .error (.syntaxError e)⟩
  | .ok args =>
    let success : FunctionOutput :=
      { type := "function_call_output"
        call_id := functionItem.call_id
        output := "success" }
    match deps.computer with
    | none => ⟨[], .ok (st, success)⟩
    | some c =>
      if c.methods.contains functionItem.name then
        match jsObjectValues args with
        | .error e => ⟨[], .error (.typeError e)⟩
        | .ok vals =>
          match c.call st functionItem.name vals with
          | .error e => ⟨[Event.call functionItem.name vals], .error e⟩
          | .ok (st1, _) => ⟨[Event.call functionItem.name vals], .ok (st1, success)⟩
      else ⟨[], .ok (st, success)⟩

/-- `takeAction` from agent.ts (lines 167-190): `message` (and `reasoning`)
items produce nothing; `computer_call` and `function_call` items are
dispatched and their results collected.  The source starts the dispatched
promises concurrently and joins them with `Promise.all`; the embedding runs
them in item order against the threaded session state — every property
proved about `takeAction` (result multiset, call-id correlation) is
independent of the interleaving, and `Promise.all` preserves item order in
the result list exactly as modelled. -/
def takeAction (deps : AgentDependencies σ) (output : List Item) (st : σ) :
    Run σ (List ActionResult) :=
  match output with
  | [] => ⟨[], .ok (st, [])⟩
  | Item.message _ :: rest => takeAction deps rest st
  | Item.reasoning _ :: rest => takeAction deps rest st
  | Item.computer_call c :: rest =>
    let r := takeComputerAction deps c st
    match r.outcome with
    | .error e => ⟨r.events, .error e⟩
    | .ok (st1, out) =>
      let rs := takeAction deps rest st1
      match rs.outcome with
      | .error e => ⟨r.events ++ rs.events, .error e⟩
      | .ok (st2, outs) =>
        ⟨r.events ++ rs.events, .ok (st2, ActionResult.computerOut out :: outs)⟩
  | Item.function_call f :: rest =>
    let r := takeFunctionAction deps f st
    match r.outcome with
    | .error e => ⟨r.events, .error e⟩
    | .ok (st1, out) =>
      let rs := takeAction deps rest st1
      match rs.outcome with
      | .error e => ⟨r.events ++ rs.events, .error e⟩
      | .ok (st2, outs) =>
        ⟨r.events ++ rs.events, .ok (st2, ActionResult.functionOut out :: outs)⟩

end Executor

/-- A parsed successful model response body: `{id, output}`. -/
structure ModelResponse where
  id : String
  output : List Item
deriving Repr

/-- Scheduled behavior of one `fetch` attempt, supplied by the (external)
network environment: a 2xx response with a parsed `{id, output}` body, a
non-ok HTTP response whose body parses to the given JSON value, or a
network-level rejection.  (Responses whose bodies fail to parse behave, in
both clients, like the exception case and are subsumed by it.) -/
inductive FetchOutcome where
  | ok (body : ModelResponse)
  | httpError (status : Nat) (body : JsonVal)
  | exn (msg : String)
deriving Repr

/-- Result of the agent.ts `createResponse` retry loop: how many `fetch`
attempts were made, the `setTimeout` delays performed (in ms, in order), the
final outcome, and the unconsumed remainder of the fetch script. -/
structure CRResult where
  attempts : Nat
  delays : List Nat
  outcome : Except JsError ModelResponse
  rest : List FetchOutcome
deriving Repr

/-- The `while (retries > 0)` loop of `createResponse` in agent.ts (lines
97-134), one constructor case per remaining-retries count.  Key control
flow, exactly as in the source: an ok response returns its body; a response
with status < 500 reads the error body and throws, but that throw is caught
by the loop's own `catch`, which rethrows only when `retries === 1` and
otherwise falls through to the backoff sleep of `1000 * (4 - retries)` ms; a
5xx response falls through to the same sleep; a fetch rejection is caught
the same way.  When the loop exits with `retries === 0` it throws
`Max retries exceeded`. -/
def createResponseLoop : List FetchOutcome → Nat → CRResult
  | script, 0 => ⟨0, [], .error (.error "Max retries exceeded"), script⟩
  | [], _ + 1 => ⟨0, [], .error (.transport "no scheduled fetch outcome"), []⟩
  | o :: rest, retries + 1 =>
    match o with
    | .ok body => ⟨1, [], .ok body, rest⟩
    | .httpError status _ =>
      if status < 500 then
        if retries = 0 then
          ⟨1, [], .error (.error ("Request failed with status " ++ toString status)), rest⟩
        else
          let r := createResponseLoop rest retries
          ⟨r.attempts + 1, 1000 * (4 - (retries + 1)) :: r.delays, r.outcome, r.rest⟩
      else
        let r := createResponseLoop rest retries
        ⟨r.attempts + 1, 1000 * (4 - (retries + 1)) :: r.delays, r.outcome, r.rest⟩
    | .exn e =>
      if retries = 0 then ⟨1, [], .error (.transport e), rest⟩
      else
        let r := createResponseLoop rest retries
        ⟨r.attempts + 1, 1000 * (4 - (retries + 1)) :: r.delays, r.outcome, r.rest⟩

/-- `createResponse` from agent.ts: the retry loop entered with
`retries = 3`.  (Header assembly from environment variables is external
configuration and not modelled.) -/
def createResponse (script : List FetchOutcome) : CRResult :=
  createResponseLoop script 3

/-- Result of the part_004 `fetchWithRetry` helper: delays slept, final
outcome, unconsumed script. -/
structure FWResult where
  delays : List Nat
  outcome : Except JsError ModelResponse
  rest : List FetchOutcome
deriving Repr

/-- `fetchWithRetry` from part_004 (lines 117-148), defaults
`retries = 3, backoff = 300`.  A non-ok response with status ≥ 500 and
retries left sleeps `backoff` and recurses with `retries - 1, backoff * 2`;
otherwise the client throws `Request failed with status ...` with the
stringified error body — but that throw happens inside its own `try`, so the
`catch` block also retries it while retries remain, exactly as it does for
fetch rejections; only with no retries left does the error surface. -/
def fetchWithRetry : List FetchOutcome → Nat → Nat → FWResult
  | [], _, _ => ⟨[], .error (.transport "no scheduled fetch outcome"), []⟩
  | o :: rest, retries, backoff =>
    match o with
    | .ok body => ⟨[], .ok body, rest⟩
    | .httpError status body =>
      if 500 ≤ status ∧ 0 < retries then
        let r := fetchWithRetry rest (retries - 1) (backoff * 2)
        ⟨backoff :: r.delays, r.outcome, r.rest⟩
      else
        if 0 < retries then
          let r := fetchWithRetry rest (retries - 1) (backoff * 2)
          ⟨backoff :: r.delays, r.outcome, r.rest⟩
        else
          ⟨[], .error (.error ("Request failed with status " ++ toString status ++ ": "
              ++ jsonStringify body)), rest⟩
    | .exn e =>
      if 0 < retries then
        let r := fetchWithRetry rest (retries - 1) (backoff * 2)
        ⟨backoff :: r.delays, r.outcome, r.rest⟩
      else ⟨[], .error (.transport e), rest⟩

/-- Items a model request can carry: role-tagged messages or fed-back action
results. -/
inductive InputItem where
  | message (role : String) (content : String)
  | result (r : ActionResult)
deriving Repr

/-- The request body assembled by `getAction`:
`{model, input, tools, truncation: "auto", previous_response_id?}`. -/
structure RequestOptions where
  model : String
  input : List InputItem
  tools : List Tool
  truncation : String
  previous_response_id : Option String
deriving Repr

/-- JavaScript truthiness of the spread
`...(previousResponseId ? {previous_response_id: previousResponseId} : {})`:
an empty string is falsy and therefore omitted. -/
def truthyId : Option String → Option String
  | some s => if s = "" then none else some s
  | none => none

/-- Result of one embedded `getAction` call: the (possibly mutated)
dependencies, the request body sent, the outcome (`output` items and the
returned `responseId`), and the unconsumed fetch script with the retry
bookkeeping. -/
structure GetActionRes (σ : Type) where
  deps : AgentDependencies σ
  request : RequestOptions
  outcome : Except JsError (List Item × String)
  rest : List FetchOutcome
  attempts : Nat
  delays : List Nat

/-- `getAction` from agent.ts (lines 137-165): stores the incoming
`previousResponseId` into `dependencies.lastResponseId` (the parameter
defaults to the stored token when a caller omits it; callers in this file
always pass it explicitly, as the routes do), builds the request with the
fixed tool manifest and `truncation = "auto"`, and returns the response's
`output` and `id`. -/
def getAction {σ : Type} (deps : AgentDependencies σ) (inputItems : List InputItem)
    (previousResponseId : Option String) (script : List FetchOutcome) :
    GetActionRes σ :=
  let deps1 := { deps with lastResponseId := previousResponseId }
  let req : RequestOptions :=
    { model := deps1.model
      input := inputItems
      tools := deps1.tools
      truncation := "auto"
      previous_response_id := truthyId previousResponseId }
  let r := createResponse script
  match r.outcome with
  | .error e => ⟨deps1, req, .error e, r.rest, r.attempts, r.delays⟩
  | .ok b => ⟨deps1, req, .ok (b.output, b.id), r.rest, r.attempts, r.delays⟩

/-- Predicate of the step route's retry condition (part_001 lines 78-81):
`result.output.length == 1 && result.output.find(item.type === "reasoning")`. -/
def isSingleReasoning (output : List Item) : Bool :=
  output.length == 1 && output.any (fun i => match i with
    | .reasoning _ => true
    | _ => false)

/-- The synthetic continuation prompt the step route injects. -/
def continuePrompt : InputItem :=
  .message "user" "Please continue with the task."

/-- Result of the step route's reasoning retry phase: final dependencies,
the synthetic requests issued in order, the final outcome, and the
unconsumed fetch script. -/
structure StepLoopResult (σ : Type) where
  deps : AgentDependencies σ
  prompts : List RequestOptions
  outcome : Except JsError (List Item × String)
  rest : List FetchOutcome

/-- Body of the step route's `do ... while` (part_001 lines 82-92): call
`getAction` with the single continuation prompt threaded on the previous
response id, and repeat while the output is a lone `reasoning` item.  The
source loop is unbounded; here fuel counts iterations, and since every
iteration consumes at least one scheduled fetch outcome,
`script.length + 1` fuel (as supplied by `reasoningRetryLoop`) makes the
fuel bound unreachable on any script. -/
def reasoningRetryGo {σ : Type} (deps : AgentDependencies σ)
    (script : List FetchOutcome) (responseId : String) :
    Nat → StepLoopResult σ
  | 0 => ⟨deps, [], .error (.error "loop fuel exhausted"), script⟩
  | fuel + 1 =>
    let g := getAction deps [continuePrompt] (some responseId) script
    match g.outcome with
    | .error e => ⟨g.deps, [g.request], .error e, g.rest⟩
    | .ok (out, rid2) =>
      if isSingleReasoning out then
        let r := reasoningRetryGo g.deps g.rest rid2 fuel
        ⟨r.deps, g.request :: r.prompts, r.outcome, r.rest⟩
      else ⟨g.deps, [g.request], .ok (out, rid2), g.rest⟩

/-- The step route's "only reasoning" handling (part_001 lines 77-93): when
the current result is a single `reasoning` item, keep issuing synthetic
`Please continue with the task.` prompts — each threaded on the previous
call's `responseId` — until a response with anything else arrives. -/
def reasoningRetryLoop {σ : Type} (deps : AgentDependencies σ)
    (script : List FetchOutcome) (result : List Item × String) :
    StepLoopResult σ :=
  if isSingleReasoning result.1 then
    reasoningRetryGo deps script result.2 (script.length + 1)
  else ⟨deps, [], .ok result, script⟩

/-- The function-valued members of `BasePlaywrightComputer`
(base_playwright.ts): the names dynamic dispatch can hit. -/
def pwMethods : List String :=
  ["connect", "disconnect", "screenshot", "click", "double_click", "scroll",
   "type", "wait", "move", "keypress", "drag", "goto", "back"]

/-- The non-function properties of `BasePlaywrightComputer`. -/
def pwProps : List String :=
  ["environment", "dimensions", "_browser", "_page"]

/-- Concrete browser-session double used by witnesses: a connected
`BasePlaywrightComputer` whose state records the names of the capabilities
invoked and whose screenshot data is a fixed base64 PNG prefix. -/
def demoComputer : Computer (List String) :=
  { methods := pwMethods
    props := pwProps
    call := fun st name _args =>
      .ok (st ++ [name], if name == "screenshot" then .str "iVBORw0KGgo" else .null)
    dimensions := (1024, 768)
    environment := "browser" }

/-- Dependencies as `createAgent` / the routes build them, with the
always-acknowledge default safety policy. -/
def demoDeps : AgentDependencies (List String) :=
  createAgent "computer-use-preview" demoComputer (fun _ => true) true

/-- Dependencies whose safety policy rejects the message `danger`. -/
def strictDeps : AgentDependencies (List String) :=
  createAgent "computer-use-preview" demoComputer (fun m => !(m == "danger")) true

example : demoDeps.tools = createAgentTools (1024, 768) "browser" := rfl

example :
    (takeComputerAction demoDeps
      { call_id := "call1"
        action := { type := "click",
                    rest := [("button", .str "left"), ("x", .num "100"), ("y", .num "200")] }
        pending_safety_checks := none } []).outcome =
    .ok (["click", "screenshot"],
      { type := "computer_call_output"
        call_id := "call1"
        acknowledged_safety_checks := []
        output := { type := "input_image"
                    image_url := "data:image/png;base64,iVBORw0KGgo" } }) := rfl

example :
    (takeComputerAction strictDeps
      { call_id := "call2"
        action := { type := "goto", rest := [("url", .str "https://x.dev")] }
        pending_safety_checks := some [⟨"sc1", "malware", "danger"⟩] } []) =
    ⟨[Event.call "goto" [.str "https://x.dev"], Event.call "screenshot" []],
     .error (.error (safetyMsg "danger"))⟩ := rfl

example :
    (takeFunctionAction demoDeps
      { call_id := "f1", name := "goto", arguments := "\x7b\"url\":\"https://x.dev\"\x7d" } []) =
    ⟨[Event.call "goto" [.str "https://x.dev"]],
     .ok (["goto"], ⟨"function_call_output", "f1", "success"⟩)⟩ := rfl

example :
    (takeFunctionAction demoDeps
      { call_id := "f2", name := "missingTool", arguments := "\x7b\x7d" } []) =
    ⟨[], .ok ([], ⟨"function_call_output", "f2", "success"⟩)⟩ := rfl

example :
    (createResponse [.httpError 400 (.obj []), .ok ⟨"resp_b", []⟩]) =
    ⟨2, [1000], .ok ⟨"resp_b", []⟩, []⟩ := rfl

example :
    (createResponse [.exn "ECONNRESET", .exn "ECONNRESET", .exn "ECONNRESET"]) =
    ⟨3, [1000, 2000], .error (.transport "ECONNRESET"), []⟩ := rfl

example :
    (createResponse [.httpError 500 .null, .httpError 502 .null, .httpError 503 .null]) =
    ⟨3, [1000, 2000, 3000], .error (.error "Max retries exceeded"), []⟩ := rfl

example :
    (fetchWithRetry [.httpError 400 (.obj []), .ok ⟨"resp_b", []⟩] 3 300) =
    ⟨[300], .ok ⟨"resp_b", []⟩, []⟩ := rfl

/-- A string with a nonempty prefix is nonempty. -/
theorem append_ne_empty_left (s t : String) (h : s.data ≠ []) : s ++ t ≠ "" := by
  intro he
  have hd := congrArg String.data he
  rw [String.data_append] at hd
  exact h (List.append_eq_nil.mp hd).1

/-- Normal completion of the shared computer-call body: the primitive was
invoked, then the screenshot, and the output is the screenshot artifact for
the item's `call_id`. -/
theorem computerCallCore_ok_spec {σ : Type} (deps : AgentDependencies σ)
    (c : Computer σ) (item : ComputerToolCall) (st st' : σ)
    (out : ComputerCallOutput)
    (heq : (computerCallCore deps c item st).outcome = .ok (st', out)) :
    (computerCallCore deps c item st).events =
      [Event.call item.action.type (argVals item.action), Event.call "screenshot" []]
    ∧ ∃ shot, out =
      { type := "computer_call_output"
        call_id := item.call_id
        acknowledged_safety_checks := checksOf item
        output := ⟨"input_image", "data:image/png;base64," ++ jsToString shot⟩ } := by
  by_cases hM : item.action.type ∈ c.methods
  · cases hCall : c.call st item.action.type (argVals item.action) with
    | error e => simp [computerCallCore, dynCall, hM, hCall] at heq
    | ok p =>
      obtain ⟨st1, v⟩ := p
      cases hS : c.call st1 "screenshot" [] with
      | error e => simp [computerCallCore, dynCall, hM, hCall, hS] at heq
      | ok q =>
        obtain ⟨st2, shot⟩ := q
        cases hF : (checksOf item).find?
            (fun ch => !(deps.acknowledgeSafetyCheckCallback ch.message)) with
        | some ch => simp [computerCallCore, dynCall, hM, hCall, hS, hF] at heq
        | none =>
          simp [computerCallCore, dynCall, hM, hCall, hS, hF] at heq ⊢
          exact ⟨shot, heq.2.symm⟩
  · by_cases hP : item.action.type ∈ c.props
    · simp [computerCallCore, dynCall, hM, hP] at heq
    · simp [computerCallCore, dynCall, hM, hP] at heq

/-- Normal completion of `takeFunctionAction` always carries the hard-coded
`success` output for the item's `call_id`. -/
theorem takeFunctionAction_ok_spec {σ : Type} (deps : AgentDependencies σ)
    (f : FunctionToolCall) (st st' : σ) (out : FunctionOutput)
    (heq : (takeFunctionAction deps f st).outcome = .ok (st', out)) :
    out = ⟨"function_call_output", f.call_id, "success"⟩ := by
  cases hJ : jsonParse f.arguments with
  | error e => simp [takeFunctionAction, hJ] at heq
  | ok args =>
    cases hC : deps.computer with
    | none =>
      simp [takeFunctionAction, hJ, hC] at heq
      exact heq.2.symm
    | some c =>
      by_cases hM : f.name ∈ c.methods
      · cases hV : jsObjectValues args with
        | error e => simp [takeFunctionAction, hJ, hC, hM, hV] at heq
        | ok vals =>
          cases hCall : c.call st f.name vals with
          | error e => simp [takeFunctionAction, hJ, hC, hM, hV, hCall] at heq
          | ok p =>
            obtain ⟨st1, u⟩ := p
            simp [takeFunctionAction, hJ, hC, hM, hV, hCall] at heq
            exact heq.2.symm
      · simp [takeFunctionAction, hJ, hC, hM] at heq
        exact heq.2.symm

/-- C1: a `computer_call` carrying a pending safety check whose message the
acknowledgment policy rejects has its side effect performed — the browser
primitive and then the screenshot both run — yet `takeComputerAction`
terminates with the fatal `Safety check failed: ... Cannot continue with
unacknowledged safety checks.` error instead of a `computer_call_output`;
and (second conjunct) no `computer_call` whose pending checks contain a
rejected one ever completes normally, whatever else happens. -/
theorem safety_gate_side_effect_then_fatal {σ : Type}
    (deps : AgentDependencies σ) (c : Computer σ) (item : ComputerToolCall)
    (st st1 st2 : σ) (v shot : JsonVal) (ch0 : SafetyCheck)
    (hc : deps.computer = some c)
    (hm : item.action.type ∈ c.methods)
    (h1 : c.call st item.action.type (argVals item.action) = .ok (st1, v))
    (h2 : c.call st1 "screenshot" [] = .ok (st2, shot))
    (hr : (checksOf item).find?
        (fun ch => !(deps.acknowledgeSafetyCheckCallback ch.message)) = some ch0) :
    takeComputerAction deps item st =
      ⟨[Event.call item.action.type (argVals item.action), Event.call "screenshot" []],
       .error (.error (safetyMsg ch0.message))⟩
    ∧ ∀ (σ2 : Type) (deps2 : AgentDependencies σ2) (item2 : ComputerToolCall) (st' : σ2),
        (∃ ch ∈ checksOf item2, deps2.acknowledgeSafetyCheckCallback ch.message = false) →
        ∀ stx outx, (takeComputerAction deps2 item2 st').outcome ≠ .ok (stx, outx) := by
  constructor
  · simp [takeComputerAction, hc, computerCallCore, dynCall, hm, h1, h2, hr]
  · intro σ2 deps2 item2 st' hex stx outx heq
    obtain ⟨ch, hch, hrej⟩ := hex
    cases hC : deps2.computer with
    | none => simp [takeComputerAction, hC] at heq
    | some c2 =>
      rw [takeComputerAction, hC] at heq
      by_cases hM : item2.action.type ∈ c2.methods
      · cases hCall : c2.call st' item2.action.type (argVals item2.action) with
        | error e => simp [computerCallCore, dynCall, hM, hCall] at heq
        | ok p =>
          obtain ⟨s1, v1⟩ := p
          cases hS : c2.call s1 "screenshot" [] with
          | error e => simp [computerCallCore, dynCall, hM, hCall, hS] at heq
          | ok q =>
            obtain ⟨s2, sh⟩ := q
            cases hF : (checksOf item2).find?
                (fun x => !(deps2.acknowledgeSafetyCheckCallback x.message)) with
            | some x => simp [computerCallCore, dynCall, hM, hCall, hS, hF] at heq
            | none =>
              have := List.find?_eq_none.mp hF ch hch
              simp [hrej] at this
      · by_cases hP : item2.action.type ∈ c2.props
        · simp [computerCallCore, dynCall, hM, hP] at heq
        · simp [computerCallCore, dynCall, hM, hP] at heq

/-- Witness for C1 at a concrete rejected safety check. -/
theorem safety_gate_side_effect_then_fatal_witness :
    strictDeps.computer = some demoComputer
    ∧ "goto" ∈ demoComputer.methods
    ∧ (checksOf
        { call_id := "call2"
          action := { type := "goto", rest := [("url", JsonVal.str "https://x.dev")] }
          pending_safety_checks := some [⟨"sc1", "malware", "danger"⟩] }).find?
        (fun ch => !(strictDeps.acknowledgeSafetyCheckCallback ch.message)) =
        some ⟨"sc1", "malware", "danger"⟩
    ∧ takeComputerAction strictDeps
        { call_id := "call2"
          action := { type := "goto", rest := [("url", JsonVal.str "https://x.dev")] }
          pending_safety_checks := some [⟨"sc1", "malware", "danger"⟩] } [] =
      ⟨[Event.call "goto" [JsonVal.str "https://x.dev"], Event.call "screenshot" []],
       .error (.error (safetyMsg "danger"))⟩ :=
  ⟨rfl, by decide, rfl,
    (safety_gate_side_effect_then_fatal strictDeps demoComputer
      { call_id := "call2"
        action := { type := "goto", rest := [("url", JsonVal.str "https://x.dev")] }
        pending_safety_checks := some [⟨"sc1", "malware", "danger"⟩] }
      [] ["goto"] ["goto", "screenshot"] JsonVal.null (JsonVal.str "iVBORw0KGgo")
      ⟨"sc1", "malware", "danger"⟩ rfl (by decide) rfl rfl rfl).1⟩

/-- C4: whenever `takeComputerAction` completes normally — for any primitive
whatsoever — the screenshot capability was invoked right after the primitive,
and the single `computer_call_output` produced carries the input item's
`call_id` and a non-empty base64 PNG data-URL image artifact. -/
theorem computer_call_output_shape {σ : Type} (deps : AgentDependencies σ)
    (item : ComputerToolCall) (st : σ) :
    ∀ st' out, (takeComputerAction deps item st).outcome = .ok (st', out) →
      (takeComputerAction deps item st).events =
        [Event.call item.action.type (argVals item.action), Event.call "screenshot" []]
      ∧ out.type = "computer_call_output"
      ∧ out.call_id = item.call_id
      ∧ out.acknowledged_safety_checks = checksOf item
      ∧ out.output.type = "input_image"
      ∧ (∃ shot, out.output.image_url = "data:image/png;base64," ++ jsToString shot)
      ∧ out.output.image_url ≠ "" := by
  intro st' out heq
  cases hC : deps.computer with
  | none => simp [takeComputerAction, hC] at heq
  | some c =>
    rw [takeComputerAction, hC] at heq
    obtain ⟨hev, shot, hout⟩ := computerCallCore_ok_spec deps c item st st' out heq
    rw [takeComputerAction, hC, hev]
    subst hout
    refine ⟨rfl, rfl, rfl, rfl, rfl, ⟨shot, rfl⟩, ?_⟩
    exact append_ne_empty_left "data:image/png;base64," (jsToString shot) (by decide)

/-- Witness for C4 at a concrete `click` call. -/
theorem computer_call_output_shape_witness :
    (takeComputerAction demoDeps
      { call_id := "call1"
        action := { type := "click",
                    rest := [("button", JsonVal.str "left"),
                             ("x", JsonVal.num "100"), ("y", JsonVal.num "200")] }
        pending_safety_checks := none } []).outcome =
      .ok (["click", "screenshot"],
        { type := "computer_call_output"
          call_id := "call1"
          acknowledged_safety_checks := []
          output := { type := "input_image"
                      image_url := "data:image/png;base64,iVBORw0KGgo" } })
    ∧ ((takeComputerAction demoDeps
      { call_id := "call1"
        action := { type := "click",
                    rest := [("button", JsonVal.str "left"),
                             ("x", JsonVal.num "100"), ("y", JsonVal.num "200")] }
        pending_safety_checks := none } []).events =
        [Event.call "click" [JsonVal.str "left", JsonVal.num "100", JsonVal.num "200"],
         Event.call "screenshot" []]
      ∧ "computer_call_output" = "computer_call_output"
      ∧ "call1" = "call1"
      ∧ ([] : List SafetyCheck) = []
      ∧ "input_image" = "input_image"
      ∧ (∃ shot, "data:image/png;base64,iVBORw0KGgo" =
          "data:image/png;base64," ++ jsToString shot)
      ∧ ("data:image/png;base64,iVBORw0KGgo" : String) ≠ "") := by
  refine ⟨rfl, ?_⟩
  have h := computer_call_output_shape demoDeps
      { call_id := "call1"
        action := { type := "click",
                    rest := [("button", JsonVal.str "left"),
                             ("x", JsonVal.num "100"), ("y", JsonVal.num "200")] }
        pending_safety_checks := none } []
      ["click", "screenshot"]
      { type := "computer_call_output"
        call_id := "call1"
        acknowledged_safety_checks := []
        output := { type := "input_image"
                    image_url := "data:image/png;base64,iVBORw0KGgo" } } rfl
  exact h

/-- True when the browser session offers no function-valued capability of
the given name (including when there is no session at all): the no-op path
of `takeFunctionAction`. -/
def capabilityAbsent {σ : Type} (deps : AgentDependencies σ) (name : String) : Bool :=
  match deps.computer with
  | none => true
  | some c => !(c.methods.contains name)

/-- C5 counterexample: a `function_call` item whose `arguments` string is
not valid JSON makes `takeFunctionAction` throw instead of returning the
fixed `success` output, so the claim does not hold of every `function_call`
item. -/
theorem function_call_invalid_json_cex :
    (takeFunctionAction demoDeps ⟨"f3", "goto", "not json"⟩ []).outcome =
      .error (.syntaxError "Unexpected token in JSON input") := rfl

/-- C5 (amended): for every `function_call` item whose `arguments` string
parses as JSON, any normal completion of `takeFunctionAction` is exactly one
`function_call_output` with the item's `call_id` and the fixed output
`success`; and when no capability of the call's name exists on the browser
session, the call completes normally with that output and invokes no browser
capability at all. -/
theorem function_call_success_shape {σ : Type} (deps : AgentDependencies σ)
    (item : FunctionToolCall) (st : σ) (v : JsonVal)
    (hjson : jsonParse item.arguments = .ok v) :
    (∀ st' out, (takeFunctionAction deps item st).outcome = .ok (st', out) →
        out = ⟨"function_call_output", item.call_id, "success"⟩)
    ∧ (capabilityAbsent deps item.name = true →
        takeFunctionAction deps item st =
          ⟨[], .ok (st, ⟨"function_call_output", item.call_id, "success"⟩)⟩) := by
  constructor
  · intro st' out heq
    exact takeFunctionAction_ok_spec deps item st st' out heq
  · intro habs
    cases hC : deps.computer with
    | none => simp [takeFunctionAction, hjson, hC]
    | some c =>
      have hni : item.name ∉ c.methods := by
        simpa [capabilityAbsent, hC] using habs
      simp [takeFunctionAction, hjson, hC, hni]

/-- Witness for C5 (amended) at a call naming a capability the session does
not have. -/
theorem function_call_success_shape_witness :
    jsonParse "\x7b\x7d" = .ok (.obj [])
    ∧ capabilityAbsent demoDeps "missingTool" = true
    ∧ takeFunctionAction demoDeps ⟨"f2", "missingTool", "\x7b\x7d"⟩ [] =
        ⟨[], .ok ([], ⟨"function_call_output", "f2", "success"⟩)⟩ :=
  ⟨rfl, rfl,
    (function_call_success_shape demoDeps ⟨"f2", "missingTool", "\x7b\x7d"⟩ []
      (.obj []) rfl).2 rfl⟩

/-- C10: a `function_call` whose `arguments` string is not valid JSON makes
`takeFunctionAction` throw the `JSON.parse` error before any browser
capability is invoked (empty event trace) and return no
`function_call_output`. -/
theorem function_call_bad_json_no_invoke {σ : Type} (deps : AgentDependencies σ)
    (item : FunctionToolCall) (st : σ) (e : String)
    (hbad : jsonParse item.arguments = .error e) :
    takeFunctionAction deps item st = ⟨[], .error (.syntaxError e)⟩ := by
  simp [takeFunctionAction, hbad]

/-- Witness for C10 at a concrete truncated-JSON argument string. -/
theorem function_call_bad_json_no_invoke_witness :
    jsonParse "\x7b" = .error "Unexpected token in JSON input"
    ∧ takeFunctionAction demoDeps ⟨"f4", "goto", "\x7b"⟩ [] =
        ⟨[], .error (.syntaxError "Unexpected token in JSON input")⟩ :=
  ⟨rfl, function_call_bad_json_no_invoke demoDeps ⟨"f4", "goto", "\x7b"⟩ []
    "Unexpected token in JSON input" rfl⟩

/-- Normal completion of `takeComputerAction` carries the item's
`call_id`. -/
theorem takeComputerAction_ok_callId {σ : Type} (deps : AgentDependencies σ)
    (item : ComputerToolCall) (st st' : σ) (out : ComputerCallOutput)
    (heq : (takeComputerAction deps item st).outcome = .ok (st', out)) :
    out.call_id = item.call_id := by
  cases hC : deps.computer with
  | none => simp [takeComputerAction, hC] at heq
  | some c =>
    rw [takeComputerAction, hC] at heq
    obtain ⟨-, shot, hout⟩ := computerCallCore_ok_spec deps c item st st' out heq
    rw [hout]

/-- C6: whenever `takeAction` completes normally on an output batch, it
yields exactly one result per actionable (`computer_call`/`function_call`)
item, in item order, with each result's `call_id` equal to its originating
item's `call_id` — `message` (and `reasoning`) items contribute no
result. -/
theorem takeAction_call_ids {σ : Type} (deps : AgentDependencies σ)
    (output : List Item) :
    ∀ (st st' : σ) (rs : List ActionResult),
      (takeAction deps output st).outcome = .ok (st', rs) →
      rs.map resultCallId = (output.filter isActionable).map itemCallId
      ∧ rs.length = (output.filter isActionable).length := by
  induction output with
  | nil =>
    intro st st' rs heq
    simp [takeAction] at heq
    simp [heq.2.symm]
  | cons item rest ih =>
    intro st st' rs heq
    cases item with
    | message m =>
      have h := ih st st' rs (by simpa [takeAction] using heq)
      simpa [isActionable] using h
    | reasoning id =>
      have h := ih st st' rs (by simpa [takeAction] using heq)
      simpa [isActionable] using h
    | computer_call c =>
      cases hO : (takeComputerAction deps c st).outcome with
      | error e => simp [takeAction, hO] at heq
      | ok p =>
        obtain ⟨st1, out⟩ := p
        cases hR : (takeAction deps rest st1).outcome with
        | error e => simp [takeAction, hO, hR] at heq
        | ok q =>
          obtain ⟨st2, outs⟩ := q
          simp [takeAction, hO, hR] at heq
          obtain ⟨-, hrs⟩ := heq
          have hid := takeComputerAction_ok_callId deps c st st1 out hO
          have htail := ih st1 st2 outs hR
          simp [← hrs, isActionable, resultCallId, itemCallId, hid, htail.1, htail.2]
    | function_call f =>
      cases hO : (takeFunctionAction deps f st).outcome with
      | error e => simp [takeAction, hO] at heq
      | ok p =>
        obtain ⟨st1, out⟩ := p
        cases hR : (takeAction deps rest st1).outcome with
        | error e => simp [takeAction, hO, hR] at heq
        | ok q =>
          obtain ⟨st2, outs⟩ := q
          simp [takeAction, hO, hR] at heq
          obtain ⟨-, hrs⟩ := heq
          have hid := takeFunctionAction_ok_spec deps f st st1 out hO
          have htail := ih st1 st2 outs hR
          simp [← hrs, isActionable, resultCallId, itemCallId, hid, htail.1, htail.2]

/-- Witness for C6: a batch of one message, one computer call, one function
call and a reasoning item yields exactly the two actionable results, ids
matching. -/
theorem takeAction_call_ids_witness :
    (takeAction demoDeps
      [Item.message ⟨"assistant", ["hello"]⟩,
       Item.computer_call
         { call_id := "cc1"
           action := { type := "back", rest := [] }
           pending_safety_checks := none },
       Item.function_call ⟨"fc1", "goto", "\x7b\"url\":\"https://x.dev\"\x7d"⟩,
       Item.reasoning "r1"] []).outcome =
      .ok (["back", "screenshot", "goto"],
        [ActionResult.computerOut
          { type := "computer_call_output"
            call_id := "cc1"
            acknowledged_safety_checks := []
            output := ⟨"input_image", "data:image/png;base64,iVBORw0KGgo"⟩ },
         ActionResult.functionOut ⟨"function_call_output", "fc1", "success"⟩])
    ∧ [ActionResult.computerOut
          { type := "computer_call_output"
            call_id := "cc1"
            acknowledged_safety_checks := []
            output := ⟨"input_image", "data:image/png;base64,iVBORw0KGgo"⟩ },
       ActionResult.functionOut
          ⟨"function_call_output", "fc1", "success"⟩].map resultCallId =
      (([Item.message ⟨"assistant", ["hello"]⟩,
         Item.computer_call
           { call_id := "cc1"
             action := { type := "back", rest := [] }
             pending_safety_checks := none },
         Item.function_call ⟨"fc1", "goto", "\x7b\"url\":\"https://x.dev\"\x7d"⟩,
         Item.reasoning "r1"] : List Item).filter isActionable).map itemCallId :=
  ⟨rfl,
    (takeAction_call_ids demoDeps
      [Item.message ⟨"assistant", ["hello"]⟩,
       Item.computer_call
         { call_id := "cc1"
           action := { type := "back", rest := [] }
           pending_safety_checks := none },
       Item.function_call ⟨"fc1", "goto", "\x7b\"url\":\"https://x.dev\"\x7d"⟩,
       Item.reasoning "r1"] []
      ["back", "screenshot", "goto"]
      [ActionResult.computerOut
        { type := "computer_call_output"
          call_id := "cc1"
          acknowledged_safety_checks := []
          output := ⟨"input_image", "data:image/png;base64,iVBORw0KGgo"⟩ },
       ActionResult.functionOut ⟨"function_call_output", "fc1", "success"⟩]
      rfl).1⟩

/-- Whether the needle list is a prefix of the haystack list. -/
def listIsPrefix : List Char → List Char → Bool
  | [], _ => true
  | _ :: _, [] => false
  | a :: as, b :: bs => a == b && listIsPrefix as bs

/-- Whether the needle occurs as a contiguous sublist of the haystack. -/
def listContainsSub : List Char → List Char → Bool
  | hs, needle =>
    match hs with
    | [] => listIsPrefix needle []
    | h :: tl => listIsPrefix needle (h :: tl) || listContainsSub tl needle

/-- Substring test used to state whether an error message names a
capability. -/
def containsSubstr (s pat : String) : Bool :=
  listContainsSub s.data pat.data

example : containsSubstr "Method frobnicate not found on computer" "frobnicate" = true := rfl
example : containsSubstr "Cannot read properties of undefined" "frobnicate" = false := rfl

/-- C9 counterexample: in the agent.ts variant an unmapped action type makes
the dynamic dispatch `computer[actionType].apply(...)` throw an engine
`TypeError` whose message does not name the missing capability — the claim's
"descriptive error whose message names the missing capability" fails
there (no output is produced, but the naming part is false). -/
theorem unmapped_action_type_cex :
    takeComputerAction demoDeps
      { call_id := "call9"
        action := { type := "frobnicate", rest := [] }
        pending_safety_checks := none } [] =
      ⟨[], .error (.typeError "Cannot read properties of undefined")⟩
    ∧ containsSubstr "Cannot read properties of undefined" "frobnicate" = false :=
  ⟨rfl, rfl⟩

/-- C9 (amended): a `computer_call` with no browser handle fails fatally
with `Computer not initialized` in both executor variants; an action type
naming no capability of the session aborts fatally with no
`computer_call_output` and no browser invocation in both variants, with a
message naming the missing capability (`Method <type> not found on
computer`) in the class-based step-route variant, while the agent.ts variant
throws a generic engine `TypeError` that does not name it. -/
theorem computer_precondition_errors {σ : Type} :
    (∀ (deps : AgentDependencies σ) (item : ComputerToolCall) (st : σ),
      deps.computer = none →
        takeComputerAction deps item st =
          ⟨[], .error (.error "Computer not initialized")⟩
        ∧ takeComputerActionChecked deps item st =
          ⟨[], .error (.error "Computer not initialized")⟩)
    ∧ (∀ (deps : AgentDependencies σ) (c : Computer σ) (item : ComputerToolCall) (st : σ),
      deps.computer = some c → item.action.type ∉ c.methods →
        ((takeComputerAction deps item st).events = []
          ∧ (∃ m, (takeComputerAction deps item st).outcome = .error (.typeError m)))
        ∧ takeComputerActionChecked deps item st =
          ⟨[], .error (.error ("Method " ++ item.action.type ++ " not found on computer"))⟩) := by
  constructor
  · intro deps item st hC
    exact ⟨by simp [takeComputerAction, hC], by simp [takeComputerActionChecked, hC]⟩
  · intro deps c item st hC hM
    refine ⟨⟨?_, ?_⟩, ?_⟩
    · by_cases hP : item.action.type ∈ c.props
      · simp [takeComputerAction, hC, computerCallCore, dynCall, hM, hP]
      · simp [takeComputerAction, hC, computerCallCore, dynCall, hM, hP]
    · by_cases hP : item.action.type ∈ c.props
      · exact ⟨"method.apply is not a function",
          by simp [takeComputerAction, hC, computerCallCore, dynCall, hM, hP]⟩
      · exact ⟨"Cannot read properties of undefined",
          by simp [takeComputerAction, hC, computerCallCore, dynCall, hM, hP]⟩
    · simp [takeComputerActionChecked, hC, hM]

/-- Dependencies whose browser handle is absent. -/
def noComputerDeps : AgentDependencies (List String) :=
  { demoDeps with computer := none }

/-- Witness for C9 (amended) at a missing browser handle and at an unmapped
action type. -/
theorem computer_precondition_errors_witness :
    noComputerDeps.computer = none
    ∧ demoDeps.computer = some demoComputer
    ∧ ("frobnicate" ∈ demoComputer.methods → False)
    ∧ takeComputerAction noComputerDeps
        { call_id := "call9"
          action := { type := "frobnicate", rest := [] }
          pending_safety_checks := none } [] =
        ⟨[], .error (.error "Computer not initialized")⟩
    ∧ takeComputerActionChecked demoDeps
        { call_id := "call9"
          action := { type := "frobnicate", rest := [] }
          pending_safety_checks := none } [] =
        ⟨[], .error (.error "Method frobnicate not found on computer")⟩ :=
  ⟨rfl, rfl, by decide,
    ((@computer_precondition_errors (List String)).1 noComputerDeps
      { call_id := "call9"
        action := { type := "frobnicate", rest := [] }
        pending_safety_checks := none } [] rfl).1,
    ((@computer_precondition_errors (List String)).2 demoDeps demoComputer
      { call_id := "call9"
        action := { type := "frobnicate", rest := [] }
        pending_safety_checks := none } [] rfl (by decide)).2⟩

/-- C2: evaluation of both retry clients at a first-attempt HTTP 400.  The
thrown `Request failed with status 400` error is caught by the very `catch`
meant for transport failures, so the 400 is retried: with a subsequent 200
the clients even return that success payload, and with persistent 400s the
agent.ts client surfaces the error only on attempt 3 after two backoff
sleeps — never the claimed immediate zero-retry failure. -/
theorem http400_retried_eval :
    createResponse [.httpError 400 (.obj []), .ok ⟨"resp_b", []⟩] =
      ⟨2, [1000], .ok ⟨"resp_b", []⟩, []⟩
    ∧ createResponse
        [.httpError 400 (.obj []), .httpError 400 (.obj []), .httpError 400 (.obj [])] =
      ⟨3, [1000, 2000], .error (.error "Request failed with status 400"), []⟩
    ∧ fetchWithRetry [.httpError 400 (.obj []), .ok ⟨"resp_b", []⟩] 3 300 =
      ⟨[300], .ok ⟨"resp_b", []⟩, []⟩ :=
  ⟨rfl, rfl, rfl⟩

/-- Failures the retry policy treats as transient per the claim: HTTP 5xx
responses and transport exceptions. -/
def isTransient : FetchOutcome → Bool
  | .ok _ => false
  | .httpError status _ => decide (500 ≤ status)
  | .exn _ => true

/-- One non-final iteration of the agent.ts retry loop on a transient
failure: consume the outcome, sleep `1000 * (4 - retries)`, continue. -/
theorem crLoop_step (o : FetchOutcome) (rest : List FetchOutcome) (r : Nat)
    (h : isTransient o = true) (hr : 0 < r) :
    createResponseLoop (o :: rest) (r + 1) =
      ⟨(createResponseLoop rest r).attempts + 1,
       1000 * (4 - (r + 1)) :: (createResponseLoop rest r).delays,
       (createResponseLoop rest r).outcome,
       (createResponseLoop rest r).rest⟩ := by
  cases o with
  | ok b => simp [isTransient] at h
  | httpError s b =>
    have hs : ¬(s < 500) := by
      have := of_decide_eq_true (by simpa [isTransient] using h)
      omega
    simp [createResponseLoop, hs]
  | exn e =>
    have : ¬(r = 0) := by omega
    simp [createResponseLoop, this]

/-- C3 counterexample: three consecutive transport exceptions exhaust the
attempts, but the loop rethrows the last transport error on the final
attempt instead of raising the claimed terminal `Max retries exceeded`
error. -/
theorem transport_exhaust_cex :
    createResponse [.exn "ECONNRESET", .exn "ECONNRESET", .exn "ECONNRESET"] =
      ⟨3, [1000, 2000], .error (.transport "ECONNRESET"), []⟩
    ∧ (JsError.transport "ECONNRESET").msg ≠ "Max retries exceeded" :=
  ⟨rfl, by decide⟩

/-- C3 (amended): on any three consecutive transient failures (HTTP 5xx or
transport exception) the agent.ts client makes exactly 3 attempts, never
touching the script beyond them, with inter-attempt delays 1000 ms then
2000 ms (doubling from the 1000 ms base); exhaustion raises the terminal
`Max retries exceeded` error when the final attempt was an HTTP 5xx (with a
further 3000 ms sleep before the loop exits), while a transport exception on
the final attempt is rethrown as-is. -/
theorem retry_exhaustion_behavior (o1 o2 o3 : FetchOutcome)
    (rest : List FetchOutcome)
    (h1 : isTransient o1 = true) (h2 : isTransient o2 = true)
    (h3 : isTransient o3 = true) :
    (createResponse ([o1, o2, o3] ++ rest)).attempts = 3
    ∧ (createResponse ([o1, o2, o3] ++ rest)).rest = rest
    ∧ (createResponse ([o1, o2, o3] ++ rest)).delays.take 2 = [1000, 2000]
    ∧ (∀ status body, o3 = FetchOutcome.httpError status body →
        createResponse ([o1, o2, o3] ++ rest) =
          ⟨3, [1000, 2000, 3000], .error (.error "Max retries exceeded"), rest⟩)
    ∧ (∀ e, o3 = FetchOutcome.exn e →
        createResponse ([o1, o2, o3] ++ rest) =
          ⟨3, [1000, 2000], .error (.transport e), rest⟩) := by
  have key : createResponse ([o1, o2, o3] ++ rest) =
      ⟨(createResponseLoop (o3 :: rest) 1).attempts + 2,
       1000 :: 2000 :: (createResponseLoop (o3 :: rest) 1).delays,
       (createResponseLoop (o3 :: rest) 1).outcome,
       (createResponseLoop (o3 :: rest) 1).rest⟩ := by
    show createResponseLoop (o1 :: o2 :: o3 :: rest) (2 + 1) = _
    rw [crLoop_step o1 (o2 :: o3 :: rest) 2 h1 (by omega)]
    rw [show (2 : Nat) = 1 + 1 from rfl, crLoop_step o2 (o3 :: rest) 1 h2 (by omega)]
  cases o3 with
  | ok b => simp [isTransient] at h3
  | httpError s b =>
    have hs : ¬(s < 500) := by
      have := of_decide_eq_true (by simpa [isTransient] using h3)
      omega
    have hlast : createResponseLoop (FetchOutcome.httpError s b :: rest) 1 =
        ⟨1, [3000], .error (.error "Max retries exceeded"), rest⟩ := by
      simp [createResponseLoop, hs]
    rw [key, hlast]
    refine ⟨rfl, rfl, rfl, fun status body hb => rfl, ?_⟩
    intro e he
    cases he
  | exn e =>
    have hlast : createResponseLoop (FetchOutcome.exn e :: rest) 1 =
        ⟨1, [], .error (.transport e), rest⟩ := by
      simp [createResponseLoop]
    rw [key, hlast]
    refine ⟨rfl, rfl, rfl, ?_, ?_⟩
    · intro status body hb
      cases hb
    · intro e2 he
      cases he
      rfl

/-- Witness for C3 (amended) at three consecutive HTTP 500 responses. -/
theorem retry_exhaustion_behavior_witness :
    isTransient (FetchOutcome.httpError 500 .null) = true
    ∧ createResponse
        [.httpError 500 .null, .httpError 500 .null, .httpError 500 .null] =
      ⟨3, [1000, 2000, 3000], .error (.error "Max retries exceeded"), []⟩ :=
  ⟨rfl,
    ((retry_exhaustion_behavior (.httpError 500 .null) (.httpError 500 .null)
      (.httpError 500 .null) [] rfl rfl rfl).2.2.2.1 500 .null rfl)⟩

/-- C7 counterexample: a completed `getAction` that was passed previous id
`A` and received response id `B` leaves the stored continuation token at
`A`, not at the returned `B`. -/
theorem lastResponseId_not_updated_cex :
    (getAction demoDeps [] (some "A") [.ok ⟨"B", []⟩]).outcome = .ok ([], "B")
    ∧ (getAction demoDeps [] (some "A") [.ok ⟨"B", []⟩]).deps.lastResponseId = some "A"
    ∧ (getAction demoDeps [] (some "A") [.ok ⟨"B", []⟩]).deps.lastResponseId ≠ some "B" :=
  ⟨rfl, rfl, by decide⟩

/-- C7 (amended): after every `getAction` call the stored continuation token
equals the `previousResponseId` argument the call was made with (which
defaults to the previously stored token when omitted) — it is written before
the model call and never updated to the returned response id; the request
sent carries that same token (omitted when falsy). -/
theorem getAction_stores_previous_id {σ : Type} (deps : AgentDependencies σ)
    (input : List InputItem) (prev : Option String) (script : List FetchOutcome) :
    (getAction deps input prev script).deps.lastResponseId = prev
    ∧ (getAction deps input prev script).request.previous_response_id = truthyId prev := by
  unfold getAction
  cases h : (createResponse script).outcome <;> simp [h]

/-- A `getAction` whose first fetch attempt succeeds consumes exactly that
attempt and returns the response body's items and id. -/
theorem getAction_ok_head {σ : Type} (deps : AgentDependencies σ)
    (input : List InputItem) (prev : Option String) (b : ModelResponse)
    (rest : List FetchOutcome) :
    getAction deps input prev (.ok b :: rest) =
      ⟨{ deps with lastResponseId := prev },
       { model := deps.model, input := input, tools := deps.tools,
         truncation := "auto", previous_response_id := truthyId prev },
       .ok (b.output, b.id), rest, 1, []⟩ := by
  simp [getAction, createResponse, createResponseLoop]

/-- One iteration of the reasoning retry loop against a script whose head
fetch succeeds on a lone-`reasoning` response: the loop records the prompt
and keeps going. -/
theorem reasoningRetryGo_reasoning_step {σ : Type} (deps : AgentDependencies σ)
    (b : ModelResponse) (rest : List FetchOutcome) (rid : String) (n : Nat)
    (hb : isSingleReasoning b.output = true) :
    reasoningRetryGo deps (.ok b :: rest) rid (n + 1) =
      ⟨(reasoningRetryGo { deps with lastResponseId := some rid } rest b.id n).deps,
       { model := deps.model, input := [continuePrompt], tools := deps.tools,
         truncation := "auto", previous_response_id := truthyId (some rid) } ::
         (reasoningRetryGo { deps with lastResponseId := some rid } rest b.id n).prompts,
       (reasoningRetryGo { deps with lastResponseId := some rid } rest b.id n).outcome,
       (reasoningRetryGo { deps with lastResponseId := some rid } rest b.id n).rest⟩ := by
  rw [reasoningRetryGo, getAction_ok_head]
  simp [hb]

/-- Final iteration of the reasoning retry loop: a response that is not a
lone `reasoning` item stops the loop and is returned. -/
theorem reasoningRetryGo_stop_step {σ : Type} (deps : AgentDependencies σ)
    (b : ModelResponse) (rest : List FetchOutcome) (rid : String) (n : Nat)
    (hb : isSingleReasoning b.output = false) :
    reasoningRetryGo deps (.ok b :: rest) rid (n + 1) =
      ⟨{ deps with lastResponseId := some rid },
       [{ model := deps.model, input := [continuePrompt], tools := deps.tools,
          truncation := "auto", previous_response_id := truthyId (some rid) }],
       .ok (b.output, b.id), rest⟩ := by
  rw [reasoningRetryGo, getAction_ok_head]
  simp [hb]

/-- C8: if the initial result is a lone `reasoning` item with id `rid1`, the
next two scheduled model responses are again lone `reasoning` items, and the
fourth response carries anything else, then the step route's retry loop
issues exactly 3 synthetic `Please continue with the task.` prompts — each a
single user message threaded on the immediately preceding call's response
id — and then proceeds with the fourth response's output, leaving the rest
of the fetch script untouched. -/
theorem reasoning_loop_three_prompts {σ : Type} (deps : AgentDependencies σ)
    (out1 : List Item) (rid1 : String) (r2 r3 r4 : ModelResponse)
    (rest : List FetchOutcome)
    (g1 : isSingleReasoning out1 = true)
    (g2 : isSingleReasoning r2.output = true)
    (g3 : isSingleReasoning r3.output = true)
    (g4 : isSingleReasoning r4.output = false)
    (n1 : rid1 ≠ "") (n2 : r2.id ≠ "") (n3 : r3.id ≠ "") :
    (reasoningRetryLoop deps ([.ok r2, .ok r3, .ok r4] ++ rest) (out1, rid1)).prompts.length = 3
    ∧ (reasoningRetryLoop deps ([.ok r2, .ok r3, .ok r4] ++ rest) (out1, rid1)).prompts.map
        (fun p => p.input) = [[continuePrompt], [continuePrompt], [continuePrompt]]
    ∧ (reasoningRetryLoop deps ([.ok r2, .ok r3, .ok r4] ++ rest) (out1, rid1)).prompts.map
        (fun p => p.previous_response_id) = [some rid1, some r2.id, some r3.id]
    ∧ (reasoningRetryLoop deps ([.ok r2, .ok r3, .ok r4] ++ rest) (out1, rid1)).outcome =
        .ok (r4.output, r4.id)
    ∧ (reasoningRetryLoop deps ([.ok r2, .ok r3, .ok r4] ++ rest) (out1, rid1)).rest = rest := by
  have hfuel : ([FetchOutcome.ok r2, .ok r3, .ok r4] ++ rest).length + 1 =
      (rest.length + 3) + 1 := by
    simp only [List.length_append, List.length_cons, List.length_nil]
    omega
  have hL : reasoningRetryLoop deps ([.ok r2, .ok r3, .ok r4] ++ rest) (out1, rid1) =
      reasoningRetryGo deps (.ok r2 :: .ok r3 :: .ok r4 :: rest) rid1
        ((rest.length + 3) + 1) := by
    rw [reasoningRetryLoop]
    simp only [g1, if_true]
    rw [hfuel]
    rfl
  rw [hL, reasoningRetryGo_reasoning_step _ _ _ _ _ g2]
  rw [show rest.length + 3 = (rest.length + 2) + 1 from rfl,
    reasoningRetryGo_reasoning_step _ _ _ _ _ g3]
  rw [show rest.length + 2 = (rest.length + 1) + 1 from rfl,
    reasoningRetryGo_stop_step _ _ _ _ _ g4]
  simp [truthyId, n1, n2, n3]

/-- Witness for C8 at a concrete three-times-reasoning script. -/
theorem reasoning_loop_three_prompts_witness :
    isSingleReasoning [Item.reasoning "r1"] = true
    ∧ isSingleReasoning [Item.message ⟨"assistant", ["done"]⟩] = false
    ∧ (reasoningRetryLoop demoDeps
        ([.ok ⟨"resp2", [Item.reasoning "r2"]⟩,
          .ok ⟨"resp3", [Item.reasoning "r3"]⟩,
          .ok ⟨"resp4", [Item.message ⟨"assistant", ["done"]⟩]⟩] ++ [])
        ([Item.reasoning "r1"], "resp1")).prompts.map
          (fun p => p.previous_response_id) =
        [some "resp1", some "resp2", some "resp3"]
    ∧ (reasoningRetryLoop demoDeps
        ([.ok ⟨"resp2", [Item.reasoning "r2"]⟩,
          .ok ⟨"resp3", [Item.reasoning "r3"]⟩,
          .ok ⟨"resp4", [Item.message ⟨"assistant", ["done"]⟩]⟩] ++ [])
        ([Item.reasoning "r1"], "resp1")).outcome =
        .ok ([Item.message ⟨"assistant", ["done"]⟩], "resp4") :=
  ⟨rfl, rfl,
    (reasoning_loop_three_prompts demoDeps [Item.reasoning "r1"] "resp1"
      ⟨"resp2", [Item.reasoning "r2"]⟩ ⟨"resp3", [Item.reasoning "r3"]⟩
      ⟨"resp4", [Item.message ⟨"assistant", ["done"]⟩]⟩ [] rfl rfl rfl rfl
      (by decide) (by decide) (by decide)).2.2.1,
    (reasoning_loop_three_prompts demoDeps [Item.reasoning "r1"] "resp1"
      ⟨"resp2", [Item.reasoning "r2"]⟩ ⟨"resp3", [Item.reasoning "r3"]⟩
      ⟨"resp4", [Item.message ⟨"assistant", ["done"]⟩]⟩ [] rfl rfl rfl rfl
      (by decide) (by decide) (by decide)).2.2.2.1⟩

end CuaBrowser
